import Mathlib

/-!
Verification of the core of `pytest-perf` (`pytest_perf/plugin.py`):
a shallow embedding of its discovery, specification-building and
runner-caching logic, plus theorems settling the specification claims.

Conventions:
* Python strings are modelled as Lean `String` / `List Char`; the helpers
  (`pySplitlines`, `pyStrip`, `pyRpartition`, `pyPartition`, `pyDedent`)
  are hand-translations of the CPython behaviour of `str.splitlines`,
  `str.strip`, `str.rpartition`, `str.partition` and `textwrap.dedent`
  restricted to the newline conventions `\n`, `\r\n`, `\r` and ASCII
  whitespace (the strings handled here are Python source text).
* Python `None` / absent values are modelled as `Option`.
* The word-character class of `re` is modelled at its ASCII core
  (identifier names in this plugin are ASCII).
-/

namespace PytestPerf

/-! ### Discovery eligibility: `re.search(r'(\b|_)perf(\b|_)', name)`

`funcs_from_name` keeps an attribute name iff the case-sensitive regular
expression `(\b|_)perf(\b|_)` finds a match.  A match exists iff "perf"
occurs at some position such that on the left there is the start of the
string, a non-word character, or an underscore (the `\b` alternative is a
word boundary; since `p` is a word character, `\b` holds exactly when the
previous character is absent or not a word character; the `_` alternative
covers the underscore, which *is* a word character), and symmetrically on
the right of the final `f`. -/

/-- ASCII core of the regex word-character class `\w` = `[A-Za-z0-9_]`. -/
def isWordChar (c : Char) : Bool :=
  c.isAlphanum || c == '_'

/-- The character to the left of a candidate match satisfies `(\b|_)`. -/
def leftOk : Option Char → Bool
  | none => true
  | some c => !(isWordChar c) || c == '_'

/-- The character to the right of a candidate match satisfies `(\b|_)`. -/
def rightOk : Option Char → Bool
  | none => true
  | some c => !(isWordChar c) || c == '_'

/-- Scan of `re.search`: does `(\b|_)perf(\b|_)` match anywhere?  `prev` is
the character immediately before the current scan position. -/
def hasPerfMatch : Option Char → List Char → Bool
  | _, [] => false
  | prev, c1 :: rest =>
    (match c1, rest with
     | 'p', 'e' :: 'r' :: 'f' :: rest2 => leftOk prev && rightOk rest2.head?
     | _, _ => false)
    || hasPerfMatch (some c1) rest

/-- Eligibility test applied by `funcs_from_name` to each attribute name. -/
def perfEligible (nm : String) : Bool :=
  hasPerfMatch none nm.data

/-! ### CPython string helpers -/

/-- Whitespace stripped by Python `str.strip()` (ASCII part). -/
def isPySpace (c : Char) : Bool :=
  c == ' ' || c == '\t' || c == '\n' || c == '\r' || c == '\x0b' || c == '\x0c'

/-- Python `str.strip()`. -/
def pyStrip (s : String) : String :=
  (((s.data.dropWhile isPySpace).reverse.dropWhile isPySpace).reverse).asString

/-- Worker for `pySplitlines`: `cur` holds the current line reversed.
A line ends at `\r\n`, `\r` or `\n`; a terminator at the very end of the
input produces no trailing empty line (CPython `str.splitlines`). -/
def pySplitAux : List Char → List Char → List String
  | cur, [] => [cur.reverse.asString]
  | cur, '\r' :: '\n' :: rest =>
    cur.reverse.asString :: (if rest.isEmpty then [] else pySplitAux [] rest)
  | cur, '\r' :: rest =>
    cur.reverse.asString :: (if rest.isEmpty then [] else pySplitAux [] rest)
  | cur, '\n' :: rest =>
    cur.reverse.asString :: (if rest.isEmpty then [] else pySplitAux [] rest)
  | cur, c :: rest => pySplitAux (c :: cur) rest

/-- Python `str.splitlines()` (for the `\n` / `\r\n` / `\r` terminators). -/
def pySplitlines (s : String) : List String :=
  if s.data.isEmpty then [] else pySplitAux [] s.data

/-! ### `first_line` and the display name

```python
@pass_none
def first_line(text):
    lines = (line.strip() for line in text.splitlines())
    return next(lines, None)
```
`pass_none` returns `None` when the argument is `None`; otherwise the
result is the *first* line, stripped (`next` of the generator), or `None`
when the text has no lines at all. -/

def first_line : Option String → Option String
  | none => none
  | some text => (pySplitlines text).head?.map pyStrip

/-- `spec_from_func` name field: `first_line(_func.__doc__) or _func.__name__`.
Python `or` falls back when the left side is falsy, i.e. `None` or `""`. -/
def specName (doc : Option String) (nm : String) : String :=
  match first_line doc with
  | none => nm
  | some s => if s = "" then nm else s

/-! ### Substring occurrences, `str.partition` and `str.rpartition` -/

/-- Index of the first occurrence of `sep` in a character list
(Python `str.find`, as used by `str.partition`). -/
def firstOccur (sep : List Char) : List Char → Option Nat
  | [] => if sep.isPrefixOf [] then some 0 else none
  | c :: rest =>
    if sep.isPrefixOf (c :: rest) then some 0
    else (firstOccur sep rest).map (· + 1)

/-- Index of the last occurrence of `sep` in a character list
(Python `str.rfind`, as used by `str.rpartition`). -/
def lastOccur (sep : List Char) : List Char → Option Nat
  | [] => if sep.isPrefixOf [] then some 0 else none
  | c :: rest =>
    match lastOccur sep rest with
    | some i => some (i + 1)
    | none => if sep.isPrefixOf (c :: rest) then some 0 else none

/-- Python `s.partition(sep)`: split at the first occurrence of `sep`;
when `sep` does not occur, the result is `(s, '', '')`. -/
def pyPartition (s sep : String) : String × String × String :=
  match firstOccur sep.data s.data with
  | some i => ((s.data.take i).asString, sep, (s.data.drop (i + sep.data.length)).asString)
  | none => (s, "", "")

/-- Python `s.rpartition(sep)`: split at the last occurrence of `sep`;
when `sep` does not occur, the result is `('', '', s)`. -/
def pyRpartition (s sep : String) : String × String × String :=
  match lastOccur sep.data s.data with
  | some i => ((s.data.take i).asString, sep, (s.data.drop (i + sep.data.length)).asString)
  | none => ("", "", s)

/-! ### `textwrap.dedent` -/

/-- `[ \t]` — the indentation characters considered by `textwrap.dedent`. -/
def isIndentChar (c : Char) : Bool :=
  c == ' ' || c == '\t'

/-- Longest common prefix of two character lists: the net effect of the
margin-narrowing loop in `textwrap.dedent`. -/
def commonPre : List Char → List Char → List Char
  | a :: as, b :: bs => if a = b then a :: commonPre as bs else []
  | _, _ => []

/-- `textwrap.dedent`: lines holding only `[ \t]` are emptied
(`_whitespace_only_re.sub('', text)`; emptying an already empty line is
the identity, so the nonemptiness required by `[ \t]+` is immaterial),
the margin is the longest common `[ \t]*` prefix of the remaining
nonblank lines, and the margin is removed from every line that starts
with it. -/
def pyDedent (text : String) : String :=
  let ls := text.data.splitOn '\n'
  let ls := ls.map (fun l => if l.all isIndentChar then [] else l)
  let indents := (ls.filter (fun l => !(l.all isIndentChar))).map
    (fun l => l.takeWhile isIndentChar)
  let margin := match indents with
    | [] => []
    | i :: is => is.foldl commonPre i
  let ls := if margin.isEmpty then ls
    else ls.map (fun l => if margin.isPrefixOf l then l.drop margin.length else l)
  (List.intercalate ['\n'] ls).asString

/-! ### The specification builder `spec_from_func`

```python
@apply(dict)
def spec_from_func(_func):
    yield 'name', (first_line(_func.__doc__) or _func.__name__)
    with contextlib.suppress(AttributeError):
        yield 'extras', freeze(_func.extras)
    with contextlib.suppress(AttributeError):
        yield 'deps', freeze(_func.deps)
    with contextlib.suppress(AttributeError):
        yield 'control', _func.control
    _header, _sep, _body_ind = inspect.getsource(_func).partition(':\n')
    _body = textwrap.dedent(_body_ind)
    warmup, sep, exercise = _body.rpartition('# end warmup')
    if warmup:
        yield 'warmup', warmup
    yield 'exercise', exercise
```
A function object is modelled by the data this code reads from it:
`__name__`, `__doc__`, the three optional attributes (present or absent;
`freeze = pass_none(tuple)` copies the iterable into a tuple, which for a
list of strings is the list itself), and the `inspect.getsource` text. -/

/-- The split marker in function bodies. -/
def endWarmupMarker : String := "# end warmup"

/-- `markerChars` is the marker as a character list. -/
def markerChars : List Char := endWarmupMarker.data

/-- The data `spec_from_func` reads from a Python function object. -/
structure FuncModel where
  name : String
  doc : Option String
  extras : Option (List String)
  deps : Option (List String)
  control : Option String
  source : String
  deriving DecidableEq

/-- A value stored in the produced spec mapping: a string or a frozen
tuple of strings. -/
inductive SpecValue where
  | str : String → SpecValue
  | strs : List String → SpecValue
  deriving DecidableEq

/-- The dedented body: `textwrap.dedent` of the text after the first
`':\n'` of the function's source. -/
def dedentedBody (f : FuncModel) : String :=
  pyDedent (pyPartition f.source ":\n").2.2

/-- The `rpartition`-based warmup/exercise split: warmup key present iff
the text before the last marker occurrence is non-empty (`if warmup:`). -/
def splitBody (body : String) : Option String × String :=
  let r := pyRpartition body endWarmupMarker
  (if r.1 = "" then none else some r.1, r.2.2)

/-- The spec mapping, as the ordered key/value pairs the generator yields;
`@apply(dict)` turns them into a dict, and since all keys are distinct,
dict lookup is `List.lookup` on these pairs. -/
def spec_from_func (f : FuncModel) : List (String × SpecValue) :=
  ("name", SpecValue.str (specName f.doc f.name)) ::
  ((match f.extras with
    | some xs => [("extras", SpecValue.strs xs)]
    | none => []) ++
   (match f.deps with
    | some ds => [("deps", SpecValue.strs ds)]
    | none => []) ++
   (match f.control with
    | some c => [("control", SpecValue.str c)]
    | none => []) ++
   (match (splitBody (dedentedBody f)).1 with
    | some w => [("warmup", SpecValue.str w)]
    | none => []) ++
   [("exercise", SpecValue.str (splitBody (dedentedBody f)).2)])

/-! ### Module loading and function discovery

```python
@suppress(Exception)
def load_module(name):
    spec = importlib.util.find_spec(name)
    mod = importlib.util.module_from_spec(spec)
    spec.loader.exec_module(mod)
    return mod

def funcs_from_name(name):
    mod_path, sep, rest = name.rpartition('.')
    mod_name = mod_path.replace('/', '.')
    mod = load_module(mod_name)
    return (
        getattr(mod, name) for name in dir(mod) if re.search(r'(\b|_)perf(\b|_)', name)
    )
```
The importlib machinery is external; what it does for a given module name
is modelled as a `LoadOutcome`: either it produces a module object, or
some step of lookup/creation/execution raises an exception (any subclass
of `Exception`).  `@suppress(Exception)` turns the latter into `None`,
modelled as `none`.  `dir` on the resulting object is either the module's
attribute listing or, for `None`, CPython's fixed `dir(None)` listing.
The generator yields `getattr(mod, n)` for each retained name `n`, so it
yields exactly as many functions as there are retained names; discovery
is modelled on the names. -/

/-- A module object: its `dir` listing (attribute names, with the
function-object data `spec_from_func` would read from each). -/
structure ModuleModel where
  attrs : List (String × FuncModel)

/-- What the importlib machinery does for one module name: produce a
module, or raise an exception during lookup, creation or execution. -/
inductive LoadOutcome where
  | ok : ModuleModel → LoadOutcome
  | raises : LoadOutcome

/-- `load_module` under `@suppress(Exception)`: any exception is absorbed
and `None` is returned. -/
def load_module : LoadOutcome → Option ModuleModel
  | .ok m => some m
  | .raises => none

/-- CPython's `dir(None)` (attributes of `NoneType`). -/
def dirNone : List String :=
  ["__bool__", "__class__", "__delattr__", "__dir__", "__doc__", "__eq__",
   "__format__", "__ge__", "__getattribute__", "__getstate__", "__gt__",
   "__hash__", "__init__", "__init_subclass__", "__le__", "__lt__",
   "__ne__", "__new__", "__reduce__", "__reduce_ex__", "__repr__",
   "__setattr__", "__sizeof__", "__str__", "__subclasshook__"]

/-- `dir(mod)` where `mod` may be the `None` produced by a failed load. -/
def pyDir : Option ModuleModel → List String
  | some m => m.attrs.map (·.1)
  | none => dirNone

/-- The module name computed by `funcs_from_name`:
`name.rpartition('.')[0].replace('/', '.')`. -/
def modNameOf (nm : String) : String :=
  (((pyRpartition nm ".").1).data.map (fun c => if c = '/' then '.' else c)).asString

/-- The names retained by the discovery generator (one function is
yielded per retained name). -/
def funcs_from_name (env : String → LoadOutcome) (nm : String) : List String :=
  (pyDir (load_module (env (modNameOf nm)))).filter perfEligible

/-! ### The Experiment execution unit

```python
def runtest(self):
    self.results = self.runner.run(self.command)

def __bool__(self):
    return hasattr(self, 'results')
```
Only the `results` attribute matters for truthiness: `none` models the
attribute not being set, `some r` models it set to the runner's return
value `r` — itself an `Option String` so that a runner returning Python
`None` or an empty string is representable. -/

/-- The observable state of an `Experiment`: whether `self.results` has
been assigned, and to what. -/
structure ExperimentState where
  results : Option (Option String)

/-- A freshly constructed `Experiment`: `results` not yet set. -/
def experimentInit : ExperimentState := ⟨none⟩

/-- `Experiment.runtest`: store the runner's return value in `results`. -/
def runtest (_e : ExperimentState) (r : Option String) : ExperimentState :=
  ⟨some r⟩

/-- `Experiment.__bool__`: `hasattr(self, 'results')`. -/
def experimentBool (e : ExperimentState) : Bool :=
  e.results.isSome

/-! ### The runner cache

`runner_factory = functools.lru_cache()(runner.BenchmarkRunner)` — an LRU
cache with the default `maxsize=128` over the named-argument sets passed
to the constructor.  A cache state holds the entries most-recent-first
together with a construction counter; each constructed `BenchmarkRunner`
instance is identified by the (fresh) counter value at its construction,
so two calls return the identical instance iff they return equal values.
`K` abstracts over the named-argument set; `functools` compares argument
sets by value. -/

/-- State of `functools.lru_cache()`: entries most-recent-first, plus a
counter producing fresh instance identities. -/
structure LruState (K : Type) where
  entries : List (K × Nat)
  counter : Nat
  deriving DecidableEq

/-- The default `maxsize` of `functools.lru_cache()`. -/
def lruMaxsize : Nat := 128

/-- First value bound to `k` (the cached instance for that key). -/
def lookupKey {K : Type} [DecidableEq K] (k : K) : List (K × Nat) → Option Nat
  | [] => none
  | (k', v) :: rest => if k' = k then some v else lookupKey k rest

/-- Remove the first entry bound to `k` (used to move a hit to the
most-recent position). -/
def removeKey {K : Type} [DecidableEq K] (k : K) : List (K × Nat) → List (K × Nat)
  | [] => []
  | (k', v) :: rest => if k' = k then rest else (k', v) :: removeKey k rest

/-- One call of the memoized factory: on a hit, return the cached
instance and move it to most-recent; on a miss, construct a fresh
instance, insert it most-recent, and evict the least-recently-used entry
when the cache would exceed `maxsize`. -/
def lruCall {K : Type} [DecidableEq K] (st : LruState K) (k : K) : Nat × LruState K :=
  match lookupKey k st.entries with
  | some v => (v, ⟨(k, v) :: removeKey k st.entries, st.counter⟩)
  | none =>
    let es := (k, st.counter) :: st.entries
    (st.counter, ⟨if lruMaxsize < es.length then es.dropLast else es, st.counter + 1⟩)

/-- The factory before any call. -/
def lruInit {K : Type} : LruState K := ⟨[], 0⟩

/-- `runner_factory.cache_clear()` (called by `pytest_sessionfinish`):
every cached instance is forgotten. -/
def cache_clear {K : Type} (st : LruState K) : LruState K :=
  ⟨[], st.counter⟩

/-- Run a sequence of factory calls from a given state. -/
def runCalls {K : Type} [DecidableEq K] (st : LruState K) (ks : List K) : LruState K :=
  ks.foldl (fun s k => (lruCall s k).2) st

/-- The instances returned by a sequence of factory calls from the
initial state, in call order. -/
def callValues {K : Type} [DecidableEq K] (ks : List K) : List Nat :=
  (ks.foldl (fun (acc : List Nat × LruState K) k =>
    let r := lruCall acc.2 k
    (acc.1 ++ [r.1], r.2)) ([], lruInit)).1

/-! ## Lemmas about substring occurrence and the rpartition split -/

theorem markerChars_ne_nil : markerChars ≠ [] := by decide

theorem lastOccur_none_no_occur {sep : List Char} (hsep : sep ≠ []) {l : List Char}
    (h : lastOccur sep l = none) (j : Nat) :
    ¬ (sep.isPrefixOf (l.drop j) = true) := by
  induction l generalizing j with
  | nil =>
    intro hpre
    rw [List.drop_nil] at hpre
    cases sep with
    | nil => exact hsep rfl
    | cons a s => simp [List.isPrefixOf] at hpre
  | cons c rest ih =>
    rw [lastOccur] at h
    cases hrec : lastOccur sep rest with
    | some i => rw [hrec] at h; simp at h
    | none =>
      rw [hrec] at h
      by_cases hp : sep.isPrefixOf (c :: rest) = true
      · rw [if_pos hp] at h; simp at h
      · rw [if_neg hp] at h
        cases j with
        | zero => simpa using hp
        | succ j' => exact ih hrec j'

theorem lastOccur_occurs {sep l : List Char} {i : Nat}
    (h : lastOccur sep l = some i) : sep.isPrefixOf (l.drop i) = true := by
  induction l generalizing i with
  | nil =>
    rw [lastOccur] at h
    by_cases hp : sep.isPrefixOf ([] : List Char) = true
    · rw [if_pos hp] at h
      injection h with h'
      subst h'
      simpa using hp
    · rw [if_neg hp] at h; cases h
  | cons c rest ih =>
    rw [lastOccur] at h
    cases hrec : lastOccur sep rest with
    | some i' =>
      rw [hrec] at h
      injection h with h'
      subst h'
      simpa using ih hrec
    | none =>
      rw [hrec] at h
      by_cases hp : sep.isPrefixOf (c :: rest) = true
      · rw [if_pos hp] at h
        injection h with h'
        subst h'
        simpa using hp
      · rw [if_neg hp] at h; cases h

theorem lastOccur_greatest {sep : List Char} (hsep : sep ≠ []) {l : List Char} {i : Nat}
    (h : lastOccur sep l = some i) (j : Nat)
    (hj : sep.isPrefixOf (l.drop j) = true) : j ≤ i := by
  induction l generalizing i j with
  | nil =>
    rw [List.drop_nil] at hj
    cases sep with
    | nil => exact absurd rfl hsep
    | cons a s => simp [List.isPrefixOf] at hj
  | cons c rest ih =>
    rw [lastOccur] at h
    cases hrec : lastOccur sep rest with
    | some i' =>
      rw [hrec] at h
      injection h with h'
      subst h'
      cases j with
      | zero => exact Nat.zero_le _
      | succ j' => exact Nat.succ_le_succ (ih hrec j' (by simpa using hj))
    | none =>
      rw [hrec] at h
      by_cases hp : sep.isPrefixOf (c :: rest) = true
      · rw [if_pos hp] at h
        injection h with h'
        subst h'
        cases j with
        | zero => exact Nat.le_refl 0
        | succ j' =>
          exact absurd (by simpa using hj) (lastOccur_none_no_occur hsep hrec j')
      · rw [if_neg hp] at h; cases h

theorem occur_split {sep l : List Char} {i : Nat}
    (h : sep.isPrefixOf (l.drop i) = true) :
    l.take i ++ sep ++ l.drop (i + sep.length) = l := by
  obtain ⟨t, ht⟩ := List.isPrefixOf_iff_prefix.mp h
  have hdrop : l.drop (i + sep.length) = t := by
    rw [← List.drop_drop, ← ht, List.drop_left]
  calc l.take i ++ sep ++ l.drop (i + sep.length)
      = l.take i ++ (sep ++ t) := by rw [hdrop, List.append_assoc]
    _ = l.take i ++ l.drop i := by rw [ht]
    _ = l := List.take_append_drop i l

theorem occur_lt_length {sep : List Char} (hsep : sep ≠ []) {l : List Char} {i : Nat}
    (h : sep.isPrefixOf (l.drop i) = true) : i < l.length := by
  by_contra hge
  have hnil : l.drop i = [] := List.drop_eq_nil_of_le (Nat.le_of_not_lt hge)
  rw [hnil] at h
  cases sep with
  | nil => exact hsep rfl
  | cons a s => simp [List.isPrefixOf] at h

theorem asString_ne_empty {l : List Char} (h : l ≠ []) : l.asString ≠ "" := by
  intro he
  exact h (congrArg String.data he)

/-- Evaluation of `splitBody` when the marker occurs, last at index `i`. -/
theorem splitBody_of_lastOccur {body : String} {i : Nat}
    (h : lastOccur markerChars body.data = some i) :
    splitBody body =
      ((if (body.data.take i).asString = "" then none
        else some (body.data.take i).asString),
       (body.data.drop (i + markerChars.length)).asString) := by
  simp only [markerChars] at h
  simp only [splitBody, pyRpartition, h, markerChars]

/-- Evaluation of `splitBody` when the marker does not occur. -/
theorem splitBody_of_no_marker {body : String}
    (h : lastOccur markerChars body.data = none) :
    splitBody body = (none, body) := by
  simp only [markerChars] at h
  simp only [splitBody, pyRpartition, h, if_true]

/-- The text before a positive last occurrence is a non-empty string. -/
theorem take_asString_ne_empty {l : List Char} {i : Nat} (hi : 0 < i)
    (hlt : i ≤ l.length) : (l.take i).asString ≠ "" := by
  apply asString_ne_empty
  intro he
  have := congrArg List.length he
  rw [List.length_take] at this
  simp only [List.length_nil] at this
  omega

/-! ## Lookup lemmas for the spec mapping -/

theorem lookup_name (f : FuncModel) :
    List.lookup "name" (spec_from_func f) =
      some (SpecValue.str (specName f.doc f.name)) := rfl

theorem lookup_extras (f : FuncModel) :
    List.lookup "extras" (spec_from_func f) = Option.map SpecValue.strs f.extras := by
  rcases hx : f.extras with _ | xs <;> rcases hd : f.deps with _ | ds <;>
    rcases hc : f.control with _ | c <;>
    rcases hw : (splitBody (dedentedBody f)).1 with _ | w <;>
    simp only [spec_from_func, hx, hd, hc, hw] <;> rfl

theorem lookup_deps (f : FuncModel) :
    List.lookup "deps" (spec_from_func f) = Option.map SpecValue.strs f.deps := by
  rcases hx : f.extras with _ | xs <;> rcases hd : f.deps with _ | ds <;>
    rcases hc : f.control with _ | c <;>
    rcases hw : (splitBody (dedentedBody f)).1 with _ | w <;>
    simp only [spec_from_func, hx, hd, hc, hw] <;> rfl

theorem lookup_control (f : FuncModel) :
    List.lookup "control" (spec_from_func f) = Option.map SpecValue.str f.control := by
  rcases hx : f.extras with _ | xs <;> rcases hd : f.deps with _ | ds <;>
    rcases hc : f.control with _ | c <;>
    rcases hw : (splitBody (dedentedBody f)).1 with _ | w <;>
    simp only [spec_from_func, hx, hd, hc, hw] <;> rfl

theorem lookup_warmup (f : FuncModel) :
    List.lookup "warmup" (spec_from_func f) =
      Option.map SpecValue.str (splitBody (dedentedBody f)).1 := by
  rcases hx : f.extras with _ | xs <;> rcases hd : f.deps with _ | ds <;>
    rcases hc : f.control with _ | c <;>
    rcases hw : (splitBody (dedentedBody f)).1 with _ | w <;>
    simp only [spec_from_func, hx, hd, hc, hw] <;> rfl

theorem lookup_exercise (f : FuncModel) :
    List.lookup "exercise" (spec_from_func f) =
      some (SpecValue.str (splitBody (dedentedBody f)).2) := by
  rcases hx : f.extras with _ | xs <;> rcases hd : f.deps with _ | ds <;>
    rcases hc : f.control with _ | c <;>
    rcases hw : (splitBody (dedentedBody f)).1 with _ | w <;>
    simp only [spec_from_func, hx, hd, hc, hw] <;> rfl

/-! ## Lemmas about the LRU runner cache -/

theorem lookupKey_removeKey_ne {K : Type} [DecidableEq K] {k k' : K}
    (hne : k' ≠ k) (es : List (K × Nat)) :
    lookupKey k (removeKey k' es) = lookupKey k es := by
  induction es with
  | nil => rfl
  | cons p rest ih =>
    obtain ⟨a, b⟩ := p
    by_cases ha : a = k'
    · subst ha
      rw [removeKey, if_pos rfl, lookupKey, if_neg hne]
    · rw [removeKey, if_neg ha, lookupKey, lookupKey]
      by_cases hak : a = k
      · rw [if_pos hak, if_pos hak]
      · rw [if_neg hak, if_neg hak, ih]

theorem removeKey_length_le {K : Type} [DecidableEq K] (k : K) (es : List (K × Nat)) :
    (removeKey k es).length ≤ es.length := by
  induction es with
  | nil => exact Nat.le_refl 0
  | cons p rest ih =>
    obtain ⟨a, b⟩ := p
    rw [removeKey]
    by_cases ha : a = k
    · rw [if_pos ha]
      exact Nat.le_succ_of_le (Nat.le_refl _)
    · rw [if_neg ha, List.length_cons, List.length_cons]
      exact Nat.succ_le_succ ih

/-- A hit returns the cached instance and constructs nothing new. -/
theorem lruCall_hit {K : Type} [DecidableEq K] {st : LruState K} {k : K} {v : Nat}
    (h : lookupKey k st.entries = some v) :
    (lruCall st k).1 = v ∧ (lruCall st k).2.counter = st.counter := by
  rw [lruCall, h]
  exact ⟨rfl, rfl⟩

/-- One factory call grows the entry list by at most one. -/
theorem lruCall_length {K : Type} [DecidableEq K] (st : LruState K) (k : K) :
    (lruCall st k).2.entries.length ≤ st.entries.length + 1 := by
  rw [lruCall]
  cases h : lookupKey k st.entries with
  | some v =>
    simp only [List.length_cons]
    exact Nat.succ_le_succ (removeKey_length_le k st.entries)
  | none =>
    simp only
    by_cases hlen : lruMaxsize < ((k, st.counter) :: st.entries).length
    · rw [if_pos hlen]
      rw [List.length_dropLast, List.length_cons]
      omega
    · rw [if_neg hlen, List.length_cons]

/-- As long as the cache is strictly below capacity, one call with any
key preserves an existing binding. -/
theorem lruCall_preserves {K : Type} [DecidableEq K] {st : LruState K} {k : K} {v : Nat}
    (h : lookupKey k st.entries = some v)
    (hlen : st.entries.length < lruMaxsize) (k' : K) :
    lookupKey k ((lruCall st k').2.entries) = some v := by
  rw [lruCall]
  cases hk' : lookupKey k' st.entries with
  | some v' =>
    simp only [lookupKey]
    by_cases he : k' = k
    · subst he
      rw [if_pos rfl]
      rw [h] at hk'
      exact hk'.symm
    · rw [if_neg he, lookupKey_removeKey_ne he, h]
  | none =>
    have hne : k' ≠ k := by
      intro he
      subst he
      rw [h] at hk'
      cases hk'
    have : ¬ lruMaxsize < ((k', st.counter) :: st.entries).length := by
      rw [List.length_cons]
      omega
    simp only [if_neg this, lookupKey, hne, ite_false]
    exact h

/-- A binding survives any run of calls whose length keeps the cache
under capacity throughout. -/
theorem runCalls_preserves {K : Type} [DecidableEq K] (ks : List K) {st : LruState K}
    {k : K} {v : Nat} (h : lookupKey k st.entries = some v)
    (hlen : st.entries.length + ks.length ≤ lruMaxsize) :
    lookupKey k ((runCalls st ks).entries) = some v := by
  induction ks generalizing st with
  | nil => exact h
  | cons k' rest ih =>
    rw [runCalls] at *
    simp only [List.foldl_cons]
    apply ih
    · exact lruCall_preserves h (by rw [List.length_cons] at hlen; omega) k'
    · have := lruCall_length st k'
      rw [List.length_cons] at hlen
      omega

/-! ## Further shared helpers -/

theorem asString_append (a b : List Char) :
    (a ++ b).asString = a.asString ++ b.asString := rfl

/-- Whether the dedented body contains the warmup marker at all. -/
def containsMarker (s : String) : Bool :=
  (lastOccur markerChars s.data).isSome

/-- `containsMarker` decides genuine substring containment. -/
theorem containsMarker_eq_false_iff (s : String) :
    containsMarker s = false ↔
      ∀ j, ¬ (markerChars.isPrefixOf (s.data.drop j) = true) := by
  constructor
  · intro h j
    cases ho : lastOccur markerChars s.data with
    | none => exact lastOccur_none_no_occur markerChars_ne_nil ho j
    | some i => rw [containsMarker, ho] at h; simp at h
  · intro h
    cases ho : lastOccur markerChars s.data with
    | none => rw [containsMarker, ho]; rfl
    | some i => exact absurd (lastOccur_occurs ho) (h i)

/-- `i` is an occurrence of the warmup marker in `s` and no later
occurrence exists. -/
def IsLastMarkerOccurrence (s : String) (i : Nat) : Prop :=
  markerChars.isPrefixOf (s.data.drop i) = true ∧
  ∀ j, markerChars.isPrefixOf (s.data.drop j) = true → j ≤ i

/-- When the warmup component is produced, it is non-empty and rebuilding
`warmup ++ marker ++ exercise` recovers the body. -/
theorem splitBody_warmup_spec {body w : String}
    (hw : (splitBody body).1 = some w) :
    w ≠ "" ∧ w ++ endWarmupMarker ++ (splitBody body).2 = body := by
  cases ho : lastOccur markerChars body.data with
  | none =>
    rw [splitBody_of_no_marker ho] at hw
    cases hw
  | some i =>
    have hsplit := splitBody_of_lastOccur ho
    rw [hsplit] at hw
    by_cases htak : (body.data.take i).asString = ""
    · rw [if_pos htak] at hw; cases hw
    · rw [if_neg htak] at hw
      injection hw with hw'
      subst hw'
      refine ⟨htak, ?_⟩
      rw [hsplit]
      have hcat := occur_split (lastOccur_occurs ho)
      calc (body.data.take i).asString ++ endWarmupMarker ++
            (body.data.drop (i + markerChars.length)).asString
          = (body.data.take i ++ markerChars ++
              body.data.drop (i + markerChars.length)).asString := by
            rw [asString_append, asString_append]
            rfl
        _ = body.data.asString := by rw [hcat]
        _ = body := rfl

/-! ## Claim C1 — discovery eligibility -/

/-- C1 (counterexample): contrary to the claim, `"performance"` is not
eligible: the regular expression `(\b|_)perf(\b|_)` demands a word
boundary or underscore on *both* sides of `perf`, and in `performance`
the character after `perf` is the word character `o`, so `re.search`
finds no match. -/
theorem performance_not_eligible : perfEligible "performance" = false := rfl

/-- C1 (amended): the discovery eligibility test is the case-sensitive
regular expression `(\b|_)perf(\b|_)`; under it the names `run_perf`,
`perf_test`, `do_perf` and `perf` are eligible, but `performance` is not
eligible, because the expression requires the boundary to be satisfied on
both sides of `perf` and in `performance` it fails on the right. -/
theorem eligibility_boundary_examples :
    perfEligible "run_perf" = true ∧ perfEligible "perf_test" = true ∧
    perfEligible "do_perf" = true ∧ perfEligible "perf" = true ∧
    perfEligible "performance" = false :=
  ⟨rfl, rfl, rfl, rfl, rfl⟩

/-! ## Claim C2 — the display name -/

/-- The name rule as the spec words it: the first *non-blank* stripped
line of the documentation text.  (Stated from the spec, for comparison
with the implementation's `first_line`, which takes the first line.) -/
def specFirstNonBlank (text : String) : Option String :=
  ((pySplitlines text).map pyStrip).find? (fun l => !(l == ""))

/-- Documentation whose first line is blank but whose second line is not. -/
def fC2x : FuncModel :=
  ⟨"func_perf", some "\nWidget timing", none, none, none,
   "def func_perf():\n    x()\n"⟩

/-- C2 (counterexample): for a function named `func_perf` whose
documentation text is `"\nWidget timing"`, the first non-blank stripped
line is `"Widget timing"`, yet the spec's name field is `"func_perf"`:
`first_line` takes the *first* line (here blank), and the `or` fallback
then substitutes the bare identifier. -/
theorem name_skips_later_nonblank_lines :
    specFirstNonBlank "\nWidget timing" = some "Widget timing" ∧
    List.lookup "name" (spec_from_func fC2x) = some (SpecValue.str "func_perf") ∧
    SpecValue.str "func_perf" ≠ SpecValue.str "Widget timing" := by
  refine ⟨rfl, rfl, ?_⟩
  decide

/-- Function with a non-blank first documentation line. -/
def fC2 : FuncModel :=
  ⟨"thing_perf", some "Widget timing\nmore detail", none, none, none,
   "def thing_perf():\n    x()\n"⟩

/-- Function with no documentation. -/
def gC2 : FuncModel :=
  ⟨"bare_perf", none, none, none, none, "def bare_perf():\n    x()\n"⟩

/-- Function whose documentation starts with a blank line. -/
def hC2 : FuncModel :=
  ⟨"late_perf", some "\nLate title", none, none, none,
   "def late_perf():\n    x()\n"⟩

/-- C2 (amended): the spec's name field equals the stripped *first* line
of the function's documentation text when that line is non-blank; it
equals the function's bare identifier when the function has no
documentation, and also when the documentation's first line strips to
blank (even if a later line is non-blank). -/
theorem name_from_first_line_or_identifier (f g h : FuncModel)
    (text l t2 l2 : String) (rest r2 : List String)
    (hdoc : f.doc = some text) (hsplit : pySplitlines text = l :: rest)
    (hne : pyStrip l ≠ "")
    (hg : g.doc = none)
    (hdoc2 : h.doc = some t2) (hsplit2 : pySplitlines t2 = l2 :: r2)
    (hblank : pyStrip l2 = "") :
    List.lookup "name" (spec_from_func f) = some (SpecValue.str (pyStrip l)) ∧
    List.lookup "name" (spec_from_func g) = some (SpecValue.str g.name) ∧
    List.lookup "name" (spec_from_func h) = some (SpecValue.str h.name) := by
  have hfl : first_line (some text) = some (pyStrip l) := by
    rw [first_line, hsplit]
    rfl
  have hfl2 : first_line (some t2) = some (pyStrip l2) := by
    rw [first_line, hsplit2]
    rfl
  refine ⟨?_, ?_, ?_⟩
  · rw [lookup_name, hdoc]
    rw [show specName (some text) f.name = pyStrip l by
      unfold specName
      rw [hfl]
      exact if_neg hne]
  · rw [lookup_name, hg]
    rfl
  · rw [lookup_name, hdoc2]
    rw [show specName (some t2) h.name = h.name by
      unfold specName
      rw [hfl2]
      exact if_pos hblank]

/-- C2 (witness): the amended name rule at concrete inputs. -/
theorem name_from_first_line_or_identifier_witness :
    List.lookup "name" (spec_from_func fC2) = some (SpecValue.str (pyStrip "Widget timing")) ∧
    List.lookup "name" (spec_from_func gC2) = some (SpecValue.str gC2.name) ∧
    List.lookup "name" (spec_from_func hC2) = some (SpecValue.str hC2.name) :=
  name_from_first_line_or_identifier fC2 gC2 hC2
    "Widget timing\nmore detail" "Widget timing" "\nLate title" "" ["more detail"]
    ["Late title"] rfl rfl (by decide) rfl rfl rfl (by decide)

/-! ## Claim C3 — the runner cache -/

/-- The call sequence of the C3 counterexample: an argument set, then 128
distinct other argument sets, then the first argument set again. -/
def seqC3 : List Nat := [0] ++ (List.range 128).map (· + 1) ++ [0]

set_option maxRecDepth 10000 in
/-- C3 (counterexample): `runner_factory` is `functools.lru_cache()` with
its default `maxsize=128`.  Starting from an empty cache, a call with
argument set `0` constructs instance `0`; after 128 calls with distinct
other argument sets the entry for `0` is evicted, and the next call with
argument set `0` constructs and returns the NEW instance `129` — not the
identical instance, contradicting "regardless of how many distinct
argument sets were requested in between". -/
theorem runner_cache_eviction_at_capacity :
    (callValues seqC3).head? = some 0 ∧
    (callValues seqC3).getLast? = some 129 ∧ (0 : Nat) ≠ 129 :=
  ⟨rfl, rfl, by decide⟩

/-- C3 (amended): a second invocation of the runner factory with an
argument set still cached returns the identical Runner instance created
before, and constructs nothing new; moreover the cached entry survives
any run of intervening invocations as long as the cache stays within its
`maxsize` of 128 entries (`functools.lru_cache()` default), so identity
is guaranteed exactly until eviction can occur. -/
theorem runner_cache_identity_below_capacity {K : Type} [DecidableEq K]
    (st : LruState K) (k : K) (v : Nat) (ks : List K)
    (h : lookupKey k st.entries = some v)
    (hlen : st.entries.length + ks.length ≤ lruMaxsize) :
    (lruCall st k).1 = v ∧ (lruCall st k).2.counter = st.counter ∧
    (lruCall (runCalls st ks) k).1 = v := by
  obtain ⟨h1, h2⟩ := lruCall_hit h
  exact ⟨h1, h2, (lruCall_hit (runCalls_preserves ks h hlen)).1⟩

/-- C3 (witness): the amended cache guarantee at concrete inputs. -/
theorem runner_cache_identity_below_capacity_witness :
    (lruCall (⟨[(5, 7)], 1⟩ : LruState Nat) 5).1 = 7 ∧
    (lruCall (⟨[(5, 7)], 1⟩ : LruState Nat) 5).2.counter = 1 ∧
    (lruCall (runCalls (⟨[(5, 7)], 1⟩ : LruState Nat) [3, 9, 3]) 5).1 = 7 :=
  runner_cache_identity_below_capacity ⟨[(5, 7)], 1⟩ 5 7 [3, 9, 3] rfl (by decide)

/-! ## Claim C4 — warmup/exercise round-trip -/

/-- Function whose dedented body *starts* with the marker line. -/
def fC4x : FuncModel :=
  ⟨"onlymarker_perf", none, none, none, none,
   "def onlymarker_perf():\n    # end warmup\n    measure()\n"⟩

/-- C4 (counterexample): the dedented body of `fC4x` is
`"# end warmup\nmeasure()\n"`, which contains `# end warmup` on its own
(first) line, yet the built spec has no `warmup` key: the text before the
marker is empty and `if warmup:` drops the key. -/
theorem warmup_key_absent_when_body_starts_with_marker :
    (pySplitlines (dedentedBody fC4x)).contains "# end warmup" = true ∧
    List.lookup "warmup" (spec_from_func fC4x) = none := ⟨rfl, rfl⟩

/-- Function with a regular warmup/exercise body. -/
def fC4 : FuncModel :=
  ⟨"split_perf", none, none, none, none,
   "def split_perf():\n    setup()\n    # end warmup\n    measure()\n"⟩

/-- C4 (amended): for every function whose dedented body contains the
marker with at least one character before its last occurrence (in
particular, the marker on its own line anywhere but at the very start),
the built spec has both a `warmup` and an `exercise` key, and
`warmup ++ "# end warmup" ++ exercise` reconstructs the dedented body
exactly.  When the body starts at the last marker occurrence, the
`warmup` key is omitted instead. -/
theorem warmup_exercise_roundtrip (f : FuncModel) (i : Nat)
    (hocc : lastOccur markerChars (dedentedBody f).data = some i) (hi : 0 < i) :
    List.lookup "warmup" (spec_from_func f) =
      some (SpecValue.str ((dedentedBody f).data.take i).asString) ∧
    List.lookup "exercise" (spec_from_func f) =
      some (SpecValue.str ((dedentedBody f).data.drop (i + markerChars.length)).asString) ∧
    ((dedentedBody f).data.take i).asString ++ endWarmupMarker ++
      ((dedentedBody f).data.drop (i + markerChars.length)).asString = dedentedBody f := by
  have hpre := lastOccur_occurs hocc
  have hlt : i < (dedentedBody f).data.length := occur_lt_length markerChars_ne_nil hpre
  have hne : ((dedentedBody f).data.take i).asString ≠ "" :=
    take_asString_ne_empty hi (Nat.le_of_lt hlt)
  have hsplit := splitBody_of_lastOccur hocc
  rw [if_neg hne] at hsplit
  refine ⟨?_, ?_, ?_⟩
  · rw [lookup_warmup, hsplit]
    rfl
  · rw [lookup_exercise, hsplit]
  · have hcat := occur_split hpre
    calc ((dedentedBody f).data.take i).asString ++ endWarmupMarker ++
          ((dedentedBody f).data.drop (i + markerChars.length)).asString
        = ((dedentedBody f).data.take i ++ markerChars ++
            (dedentedBody f).data.drop (i + markerChars.length)).asString := by
          rw [asString_append, asString_append]
          rfl
      _ = (dedentedBody f).data.asString := by rw [hcat]
      _ = dedentedBody f := rfl

/-- C4 (witness): the round-trip at a concrete function. -/
theorem warmup_exercise_roundtrip_witness :
    List.lookup "warmup" (spec_from_func fC4) =
      some (SpecValue.str ((dedentedBody fC4).data.take 8).asString) ∧
    List.lookup "exercise" (spec_from_func fC4) =
      some (SpecValue.str ((dedentedBody fC4).data.drop (8 + markerChars.length)).asString) ∧
    ((dedentedBody fC4).data.take 8).asString ++ endWarmupMarker ++
      ((dedentedBody fC4).data.drop (8 + markerChars.length)).asString = dedentedBody fC4 :=
  warmup_exercise_roundtrip fC4 8 rfl (by decide)

/-! ## Claim C5 — failed module loads -/

/-- C5: when the importlib machinery raises for the module named by a
collected file, `load_module` (decorated `@suppress(Exception)`) absorbs
the exception and returns `None`, and `funcs_from_name` — which then
enumerates `dir(None)` — yields zero functions, because no attribute of
`NoneType` matches the `perf` pattern. -/
theorem failed_load_yields_no_experiments (env : String → LoadOutcome) (nm : String)
    (h : env (modNameOf nm) = LoadOutcome.raises) :
    load_module (env (modNameOf nm)) = none ∧ funcs_from_name env nm = [] := by
  constructor
  · rw [h]
    rfl
  · simp only [funcs_from_name, h]
    rfl

/-- C5 (witness): a concrete always-raising import environment. -/
theorem failed_load_yields_no_experiments_witness :
    load_module ((fun _ => LoadOutcome.raises) (modNameOf "pkg/mod.attr")) = none ∧
    funcs_from_name (fun _ => LoadOutcome.raises) "pkg/mod.attr" = [] :=
  failed_load_yields_no_experiments (fun _ => LoadOutcome.raises) "pkg/mod.attr" rfl

/-! ## Claim C6 — bodies without the marker -/

/-- Function whose body has no marker. -/
def fC6 : FuncModel :=
  ⟨"plain_perf", none, none, none, none,
   "def plain_perf():\n    x()\n    y()\n"⟩

/-- C6: for every function whose dedented body does not contain the
marker (`containsMarker` decides real substring containment, by
`containsMarker_eq_false_iff`), the built spec has no `warmup` key and
its `exercise` value is the full dedented body. -/
theorem no_marker_spec (f : FuncModel)
    (h : containsMarker (dedentedBody f) = false) :
    List.lookup "warmup" (spec_from_func f) = none ∧
    List.lookup "exercise" (spec_from_func f) =
      some (SpecValue.str (dedentedBody f)) := by
  have hnone : lastOccur markerChars (dedentedBody f).data = none := by
    cases ho : lastOccur markerChars (dedentedBody f).data with
    | none => rfl
    | some i => rw [containsMarker, ho] at h; simp at h
  have hsplit := splitBody_of_no_marker hnone
  constructor
  · rw [lookup_warmup, hsplit]
    rfl
  · rw [lookup_exercise, hsplit]

/-- C6 (witness): a concrete marker-free function. -/
theorem no_marker_spec_witness :
    List.lookup "warmup" (spec_from_func fC6) = none ∧
    List.lookup "exercise" (spec_from_func fC6) =
      some (SpecValue.str (dedentedBody fC6)) :=
  no_marker_spec fC6 rfl

/-! ## Claim C7 — optional attribute fields -/

/-- C7: for every function, the `extras`/`deps`/`control` keys are
present in the built spec exactly when the corresponding attribute is
present on the function object (no key with a `None`/empty placeholder);
`extras` and `deps` values are the frozen order-preserving copy of the
iterable found, and `control` is the raw value verbatim. -/
theorem optional_attribute_fields (f : FuncModel) :
    List.lookup "extras" (spec_from_func f) = Option.map SpecValue.strs f.extras ∧
    List.lookup "deps" (spec_from_func f) = Option.map SpecValue.strs f.deps ∧
    List.lookup "control" (spec_from_func f) = Option.map SpecValue.str f.control :=
  ⟨lookup_extras f, lookup_deps f, lookup_control f⟩

/-! ## Claim C8 — Experiment truthiness -/

/-- C8: an `Experiment` is falsy before `runtest` has completed and
truthy immediately after, even when the runner's returned value is
Python `None` or an empty string: `__bool__` is exactly
`hasattr(self, 'results')`. -/
theorem experiment_truthiness :
    experimentBool experimentInit = false ∧
    (∀ (e : ExperimentState) (r : Option String),
      experimentBool (runtest e r) = true) ∧
    experimentBool (runtest experimentInit none) = true ∧
    experimentBool (runtest experimentInit (some "")) = true :=
  ⟨rfl, fun _ _ => rfl, rfl, rfl⟩

/-! ## Claim C9 — exercise always present, warmup non-empty -/

/-- Concrete function used by the C9 witness. -/
def fC9 : FuncModel :=
  ⟨"timing_perf", none, none, none, none,
   "def timing_perf():\n    setup()\n    # end warmup\n    m()\n"⟩

/-- C9: for every built spec the `exercise` key is present (with the
exercise component of the body split), and whenever a `warmup` key is
present its value is non-empty text that precedes the marker in the
dedented body (`warmup ++ marker ++ exercise` is the body). -/
theorem exercise_present_warmup_nonempty (f g : FuncModel) (w : String)
    (hw : List.lookup "warmup" (spec_from_func g) = some (SpecValue.str w)) :
    List.lookup "exercise" (spec_from_func f) =
      some (SpecValue.str (splitBody (dedentedBody f)).2) ∧
    w ≠ "" ∧
    w ++ endWarmupMarker ++ (splitBody (dedentedBody g)).2 = dedentedBody g := by
  refine ⟨lookup_exercise f, ?_⟩
  rw [lookup_warmup g] at hw
  have hw' : (splitBody (dedentedBody g)).1 = some w := by
    cases ho : (splitBody (dedentedBody g)).1 with
    | none => rw [ho] at hw; cases hw
    | some w' =>
      rw [ho] at hw
      injection hw with hw2
      injection hw2 with hw3
      rw [hw3]
  exact splitBody_warmup_spec hw'

/-- C9 (witness): concrete spec with both keys. -/
theorem exercise_present_warmup_nonempty_witness :
    List.lookup "exercise" (spec_from_func fC6) =
      some (SpecValue.str (splitBody (dedentedBody fC6)).2) ∧
    ("setup()\n" : String) ≠ "" ∧
    "setup()\n" ++ endWarmupMarker ++ (splitBody (dedentedBody fC9)).2 =
      dedentedBody fC9 :=
  exercise_present_warmup_nonempty fC6 fC9 "setup()\n" rfl

/-! ## Claim C10 — split at the last marker occurrence -/

/-- Function whose body embeds the marker inside a longer first line. -/
def fC10x : FuncModel :=
  ⟨"embedded_perf", none, none, none, none,
   "def embedded_perf():\n    # end warmupx\n"⟩

/-- C10 (counterexample): the dedented body `"# end warmupx\n"` embeds
the marker inside a longer line, with nothing before its (only, hence
final) occurrence; `exercise` is the text after the occurrence, but the
claim's "warmup is everything before it" fails: the spec carries no
`warmup` key at all (rather than an empty-string value). -/
theorem split_empty_prefix_omits_warmup :
    dedentedBody fC10x = "# end warmupx\n" ∧
    List.lookup "exercise" (spec_from_func fC10x) = some (SpecValue.str "x\n") ∧
    List.lookup "warmup" (spec_from_func fC10x) = none ∧
    (none : Option SpecValue) ≠ some (SpecValue.str "") := by
  refine ⟨rfl, rfl, rfl, ?_⟩
  decide

/-- Function whose body contains the marker twice. -/
def fC10 : FuncModel :=
  ⟨"twice_perf", none, none, none, none,
   "def twice_perf():\n    # end warmup\n    # end warmup\n    y()\n"⟩

/-- C10 (amended): the warmup/exercise split is made at the *last*
occurrence of the substring `# end warmup` anywhere in the dedented body,
not only when it stands as its own line: for every body in which the last
occurrence is at index `i`, no occurrence lies beyond `i`, `exercise` is
exactly the text after that final occurrence, and `warmup` is everything
before it whenever that text is non-empty (`0 < i`); when the final
occurrence starts the body, the `warmup` key is omitted instead. -/
theorem split_at_last_occurrence (f : FuncModel) (i : Nat)
    (hocc : lastOccur markerChars (dedentedBody f).data = some i) :
    IsLastMarkerOccurrence (dedentedBody f) i ∧
    List.lookup "exercise" (spec_from_func f) =
      some (SpecValue.str ((dedentedBody f).data.drop (i + markerChars.length)).asString) ∧
    (0 < i → List.lookup "warmup" (spec_from_func f) =
      some (SpecValue.str ((dedentedBody f).data.take i).asString)) := by
  have hpre := lastOccur_occurs hocc
  have hsplit := splitBody_of_lastOccur hocc
  refine ⟨⟨hpre, fun j hj => lastOccur_greatest markerChars_ne_nil hocc j hj⟩, ?_, ?_⟩
  · rw [lookup_exercise, hsplit]
  · intro hi
    have hlt : i < (dedentedBody f).data.length :=
      occur_lt_length markerChars_ne_nil hpre
    have hne : ((dedentedBody f).data.take i).asString ≠ "" :=
      take_asString_ne_empty hi (Nat.le_of_lt hlt)
    rw [if_neg hne] at hsplit
    rw [lookup_warmup, hsplit]
    rfl

/-- C10 (witness): a body containing the marker twice splits at the
second (last) occurrence. -/
theorem split_at_last_occurrence_witness :
    IsLastMarkerOccurrence (dedentedBody fC10) 13 ∧
    List.lookup "exercise" (spec_from_func fC10) =
      some (SpecValue.str ((dedentedBody fC10).data.drop (13 + markerChars.length)).asString) ∧
    List.lookup "warmup" (spec_from_func fC10) =
      some (SpecValue.str ((dedentedBody fC10).data.take 13).asString) :=
  ⟨(split_at_last_occurrence fC10 13 rfl).1,
   (split_at_last_occurrence fC10 13 rfl).2.1,
   (split_at_last_occurrence fC10 13 rfl).2.2 (by decide)⟩

end PytestPerf
